import Mathlib

/-!
Verification of the httpclient request-execution pipeline.

Shallow embedding of the Go sources:
  - retry policy (`RetryPolicy`, `Backoff`, `ShouldRetry`, `ParseRetryAfter`),
  - error classification (`Error.IsRetryable`, the `ErrorKind` taxonomy),
  - token-bucket rate limiter (`RateLimiter.Wait` / `refill`),
  - body encoding (`internal.EncodeBody`),
  - the request executor (`Client.doWithOptions`) with its attempt loop,
  - the middleware chain construction.

Modelling conventions:
  - Durations are rationals measured in nanoseconds (Go `time.Duration` is an
    int64 nanosecond count; `Backoff` computes in float64, modelled here with
    exact rational arithmetic).  Where int64 wrap-around is observable
    (`ParseRetryAfter` multiplies by `time.Second`), it is modelled explicitly.
  - Wall-clock instants are rationals; lazy refill and context deadlines take
    the relevant `now` as an explicit argument.
  - The transport is an oracle `Int → Except GoErr Response`, indexed by the
    1-based attempt number; per logical request that index is the only input
    that varies between attempts.
  - Effects that the claims observe (requests handed to the middleware chain,
    waits between attempts) are returned as traces in `ExecOut`.
-/

namespace Httpclient

/-- Error kinds of `error.go` (`ErrKindUnknown` .. `ErrKindRateLimit`). -/
inductive ErrorKind
  | unknown
  | timeout
  | network
  | http
  | parse
  | rateLimit
deriving DecidableEq, Repr

/-- Transport-level Go errors distinguished by `wrapError` in `client.go`. -/
inductive GoErr
  | deadlineExceeded
  | canceled
  | other (msg : String)
deriving DecidableEq, Repr

/-- Classified error struct of `error.go` (`httpclient.Error`). -/
structure HError where
  kind : ErrorKind
  statusCode : Int := 0
  status : String := ""
  body : List Nat := []
  headers : List (String × String) := []
  method : String := ""
  url : String := ""
  attempts : Int := 0
  cause : Option GoErr := Option.none
deriving DecidableEq, Repr

/-- Raw (unclassified) Go error values that `doWithOptions` returns as-is. -/
inductive RawErr
  | encode (msg : String)
  | jsonUnmarshal
deriving DecidableEq, Repr

/-- An error returned by the executor: either a classified `*httpclient.Error`
or a raw Go error passed through without classification. -/
inductive ExecErr
  | cls (e : HError)
  | raw (e : RawErr)
deriving DecidableEq, Repr

/-- Response struct of `response.go`: status code, status text, headers, body. -/
structure Response where
  statusCode : Int
  status : String := ""
  headers : List (String × String) := []
  body : List Nat := []
deriving DecidableEq, Repr

/-- Header lookup, modelling `http.Header.Get` (first value, or empty string).
MIME canonicalisation of keys is not modelled; lookups use the exact key. -/
def getHeader (hs : List (String × String)) (k : String) : String :=
  match hs.find? (fun kv => kv.1 == k) with
  | some kv => kv.2
  | Option.none => ""

/-- Header `Add`: appends the value, keeping existing values for the key. -/
def addHeader (hs : List (String × String)) (k v : String) : List (String × String) :=
  hs ++ [(k, v)]

/-- Header `Set`: replaces all values for the key. -/
def setHeader (hs : List (String × String)) (k v : String) : List (String × String) :=
  hs.filter (fun kv => kv.1 ≠ k) ++ [(k, v)]

/-- Retry policy value object of `retry.go`.  Durations in nanoseconds. -/
structure RetryPolicy where
  maxAttempts : Int
  initialDelay : ℚ
  maxDelay : ℚ
  multiplier : ℚ
  jitter : ℚ
deriving DecidableEq, Repr

/-- Model of `RetryPolicy.Backoff`: base delay `initialDelay * multiplier^(attempt-1)`
capped at `maxDelay`; when jitter is positive the result is perturbed by the
random draw `u ∈ [0,1)` (Go's `rand.Float64()`), giving
`delay - jitterRange + u * 2 * jitterRange`.  Go computes in float64 and then
truncates to `time.Duration`; the model uses exact rationals. -/
def backoff (p : RetryPolicy) (u : ℚ) (attempt : Int) : ℚ :=
  let a : Int := if attempt ≤ 0 then 1 else attempt
  let delay : ℚ := p.initialDelay * p.multiplier ^ (a - 1).toNat
  let delay : ℚ := if p.maxDelay < delay then p.maxDelay else delay
  if 0 < p.jitter then
    let jitterRange := delay * p.jitter
    delay - jitterRange + u * 2 * jitterRange
  else delay

/-- Model of `RetryPolicy.ShouldRetry`: the switch over 408, 429, 502, 503, 504. -/
def shouldRetry (s : Int) : Bool :=
  if s = 408 then true
  else if s = 429 then true
  else if s = 502 then true
  else if s = 503 then true
  else if s = 504 then true
  else false

/-- Model of `Error.IsRetryable` in `error.go`: true for Timeout and Network
kinds, and for HTTP kind with one of the five retryable status codes (the
status list is duplicated in the source rather than calling `ShouldRetry`). -/
def isRetryable (e : HError) : Bool :=
  match e.kind with
  | ErrorKind.timeout => true
  | ErrorKind.network => true
  | ErrorKind.http =>
    if e.statusCode = 408 then true
    else if e.statusCode = 429 then true
    else if e.statusCode = 502 then true
    else if e.statusCode = 503 then true
    else if e.statusCode = 504 then true
    else false
  | _ => false

/-- Numeric value of a decimal digit character, `Option.none` for non-digits. -/
def digitVal (c : Char) : Option Nat :=
  if '0' ≤ c ∧ c ≤ '9' then some (c.toNat - '0'.toNat) else Option.none

/-- Accumulating decimal parser over a character list. -/
def parseDigitsAux : List Char → Nat → Option Nat
  | [], acc => some acc
  | c :: cs, acc =>
    match digitVal c with
    | some d => parseDigitsAux cs (acc * 10 + d)
    | Option.none => Option.none

/-- Parses a non-empty all-digit character list to its decimal value. -/
def parseDigits : List Char → Option Nat
  | [] => Option.none
  | l => parseDigitsAux l 0

/-- Largest Go int64 value. -/
def int64Max : Int := 2 ^ 63 - 1

/-- Smallest Go int64 value. -/
def int64Min : Int := -(2 ^ 63)

/-- Model of Go `strconv.Atoi`: optional sign, decimal digits, int64 range
check (out-of-range input makes `Atoi` return an error, modelled as `none`). -/
def atoiGo (s : String) : Option Int :=
  match s.data with
  | [] => Option.none
  | '+' :: rest =>
    (parseDigits rest).bind fun n =>
      if (n : Int) ≤ int64Max then some (n : Int) else Option.none
  | '-' :: rest =>
    (parseDigits rest).bind fun n =>
      if int64Min ≤ -(n : Int) then some (-(n : Int)) else Option.none
  | l =>
    (parseDigits l).bind fun n =>
      if (n : Int) ≤ int64Max then some (n : Int) else Option.none

/-- Two's-complement wrap of an integer into the int64 range, modelling Go's
wrapping int64 multiplication. -/
def wrap64 (n : Int) : Int := (n + 2 ^ 63) % 2 ^ 64 - 2 ^ 63

/-- Model of `ParseRetryAfter` in `retry.go`: empty string or failed `Atoi`
yield 0; otherwise the parsed seconds are multiplied by `time.Second`
(an int64 multiplication, hence the wrap). -/
def parseRetryAfter (value : String) : Int :=
  if value = "" then 0
  else
    match atoiGo value with
    | Option.none => 0
    | some seconds => wrap64 (seconds * 1000000000)

/-- Token-bucket rate limiter state of `ratelimit.go`.  `refillRate` is tokens
per nanosecond; `lastRefill` is a wall-clock instant in nanoseconds. -/
structure RateLimiter where
  tokens : ℚ
  maxTokens : ℚ
  refillRate : ℚ
  lastRefill : ℚ
deriving DecidableEq, Repr

/-- Model of `NewRateLimiter(requests, duration)`: full bucket, capacity
`requests`, continuous rate `requests/duration`, construction instant `now`. -/
def newRateLimiter (requests : Int) (duration : ℚ) (now : ℚ) : RateLimiter :=
  { tokens := (requests : ℚ)
    maxTokens := (requests : ℚ)
    refillRate := (requests : ℚ) / duration
    lastRefill := now }

/-- Model of the private `refill` method: add `elapsed * refillRate` tokens,
clamp at capacity, advance the refill timestamp. -/
def refill (r : RateLimiter) (now : ℚ) : RateLimiter :=
  let elapsed := now - r.lastRefill
  let t := r.tokens + elapsed * r.refillRate
  let t := if r.maxTokens < t then r.maxTokens else t
  { r with tokens := t, lastRefill := now }

/-- Model of `RateLimiter.Wait`.  Each loop iteration observes a wall-clock
instant (the `time.Now()` seen by `refill`) and whether the `select` takes the
`ctx.Done()` branch (for an already-cancelled context this is always the case,
since the freshly armed timer cannot fire first).  Result: `some (true, s)`
when a token was debited (Wait returned nil), `some (false, s)` when Wait
returned `ctx.Err()`, and `Option.none` when the schedule runs out (the call
is still blocked). -/
def rlWait (r : RateLimiter) : List (ℚ × Bool) → Option (Bool × RateLimiter)
  | [] => Option.none
  | (now, ctxDone) :: rest =>
    let r1 := refill r now
    if 1 ≤ r1.tokens then some (true, { r1 with tokens := r1.tokens - 1 })
    else if ctxDone then some (false, r1)
    else rlWait r1 rest

/-- Request body given to `doWithOptions`, mirroring the type switch of
`internal.EncodeBody`.  Bytes are modelled as `List Nat`; the payload of the
default (JSON-marshalled) case is opaque, so that constructor carries the
marshal outcome directly. -/
inductive GoBody
  | nil
  | bytes (b : List Nat)
  | str (s : String)
  | reader (b : List Nat)
  | form (kvs : List (String × String))
  | other (marshal : Except String (List Nat))
deriving Repr

/-- String to bytes; code points stand in for UTF-8 bytes (no claim depends on
the byte-level encoding of strings). -/
def strToBytes (s : String) : List Nat := s.data.map Char.toNat

/-- Form encoding of `url.Values.Encode`, abstracted: key=value pairs joined
by ampersands.  Percent-escaping and key sorting are not modelled; no claim
depends on them. -/
def formEncode (kvs : List (String × String)) : String :=
  String.intercalate "&" (kvs.map fun kv => kv.1 ++ "=" ++ kv.2)

/-- Model of `internal.EncodeBody`: returns the encoded bytes (none for a nil
body) and a content-type hint, or the marshal error from the default case. -/
def encodeBody : GoBody → Except String (Option (List Nat) × String)
  | GoBody.nil => Except.ok (Option.none, "")
  | GoBody.bytes b => Except.ok (some b, "")
  | GoBody.str s => Except.ok (some (strToBytes s), "")
  | GoBody.reader b => Except.ok (some b, "")
  | GoBody.form kvs =>
    Except.ok (some (strToBytes (formEncode kvs)), "application/x-www-form-urlencoded")
  | GoBody.other m =>
    match m with
    | Except.error e => Except.error e
    | Except.ok d => Except.ok (some d, "application/json")

/-- Cancellation scope: Go `context.Context`, reduced to its deadline. -/
structure Ctx where
  deadline : Option ℚ
deriving DecidableEq, Repr

/-- Model of `context.WithTimeout(ctx, d)` at instant `now`: the new deadline
is `now + d`, never later than the parent's deadline. -/
def withTimeout (ctx : Ctx) (now d : ℚ) : Ctx :=
  match ctx.deadline with
  | Option.none => { deadline := some (now + d) }
  | some dl => { deadline := some (min dl (now + d)) }

/-- Client configuration relevant to `doWithOptions` (immutable after `New`).
`timeout` is the client-level default set by `WithTimeout`. -/
structure ClientCfg where
  headers : List (String × String) := []
  defaultContentType : String := "application/json"
  timeout : ℚ := 30000000000
  retryPolicy : Option RetryPolicy := Option.none
  hasRateLimiter : Bool := false
deriving Repr

/-- Per-request configuration (`requestConfig` of `options.go`).  Freshly
created by `newRequestConfig` with a zero timeout; only `WithRequestTimeout`
sets it. -/
structure ReqCfg where
  timeout : ℚ := 0
  headers : List (String × String) := []
  contentType : String := ""
deriving Repr

/-- Wire request handed to the middleware chain and transport: the result of
`http.NewRequestWithContext` plus the header merge of the attempt loop. -/
structure WireReq where
  method : String
  url : String
  headers : List (String × String)
  body : Option (List Nat)
  ctx : Ctx
deriving DecidableEq, Repr

/-- Observable outcome of `doWithOptions`: the returned (response, error) pair
plus the trace of wire requests that reached the middleware chain and the
inter-attempt waits that `waitForRetry` was asked to sleep. -/
structure ExecOut where
  resp : Option Response
  err : Option ExecErr
  sent : List WireReq
  waits : List ℚ
deriving Repr

/-- Model of the per-attempt request construction in `doWithOptions`: a fresh
reader over the once-encoded body bytes, client default headers added, then
per-request headers set (overriding), then the Content-Type precedence
(per-request override, else encoder hint, else client default when a body is
present). -/
def buildReq (c : ClientCfg) (cfg : ReqCfg) (ctx : Ctx) (method url : String)
    (body : GoBody) (bodyBytes : Option (List Nat)) (encCT : String) : WireReq :=
  let hs := c.headers.foldl (fun acc kv => addHeader acc kv.1 kv.2) []
  let hs := cfg.headers.foldl (fun acc kv => setHeader acc kv.1 kv.2) hs
  let hs :=
    if cfg.contentType ≠ "" then setHeader hs "Content-Type" cfg.contentType
    else if encCT ≠ "" then setHeader hs "Content-Type" encCT
    else
      match body with
      | GoBody.nil => hs
      | _ => setHeader hs "Content-Type" c.defaultContentType
  { method := method, url := url, headers := hs, body := bodyBytes, ctx := ctx }

/-- Model of `wrapError` in `client.go`: deadline-exceeded becomes Timeout,
cancellation becomes Network, anything else Unknown. -/
def wrapError (e : GoErr) (method url : String) : HError :=
  let kind :=
    match e with
    | GoErr.deadlineExceeded => ErrorKind.timeout
    | GoErr.canceled => ErrorKind.network
    | GoErr.other _ => ErrorKind.unknown
  { kind := kind, method := method, url := url, cause := some e }

/-- Loop-invariant data of the attempt loop: configuration, the derived
context, the once-encoded body, the transport and jitter oracles, and the
deserialisation target (`hasResult` with the decode outcome oracle). -/
structure LoopEnv where
  c : ClientCfg
  cfg : ReqCfg
  ctx : Ctx
  method : String
  url : String
  body : GoBody
  bodyBytes : Option (List Nat)
  encCT : String
  tr : Int → Except GoErr Response
  rand : Int → ℚ
  hasResult : Bool
  decodeOk : List Nat → Bool
  maxAttempts : Int

/-- The wire request an attempt of `env` hands to the middleware chain. -/
def envReq (env : LoopEnv) : WireReq :=
  buildReq env.c env.cfg env.ctx env.method env.url env.body env.bodyBytes env.encCT

/-- The HTTP-kind classified error that the attempt loop constructs for a
status >= 400 response observed at the given attempt number. -/
def httpErrOf (method url : String) (r : Response) (attempt : Int) : ExecErr :=
  ExecErr.cls
    { kind := ErrorKind.http, statusCode := r.statusCode, status := r.status,
      body := r.body, headers := r.headers, method := method, url := url,
      attempts := attempt }

/-- The delay waited before the next attempt after a retryable status >= 400
response: the policy backoff, superseded by a parsed `Retry-After` header when
present and positive. -/
def retryDelay (p : RetryPolicy) (u : ℚ) (r : Response) (attempt : Int) : ℚ :=
  let delay := backoff p u attempt
  let ra := getHeader r.headers "Retry-After"
  if ra ≠ "" then
    if 0 < parseRetryAfter ra then ((parseRetryAfter ra : Int) : ℚ) else delay
  else delay

/-- The attempt loop of `doWithOptions` (`for attempt := 1; attempt <= maxAttempts`),
with the remaining iteration count as fuel (the caller passes
`maxAttempts.toNat`, so fuel 0 means the loop guard failed).  Mirrors the
source branch for branch: transport failure is wrapped and retried while a
policy is set and attempts remain; a status ≥ 400 response yields an HTTP-kind
error and is retried while attempts remain and the policy marks the status
retryable, with the backoff superseded by a positive parsed Retry-After header;
a status < 400 response is returned, after the optional JSON deserialisation
whose failure is returned raw alongside the response. -/
def attemptLoop (env : LoopEnv) :
    Nat → Int → Option Response → Option ExecErr → List WireReq → List ℚ → ExecOut
  | 0, _attempt, resp, lastErr, sent, waits =>
    { resp := resp, err := lastErr, sent := sent, waits := waits }
  | Nat.succ fuel, attempt, resp, _lastErr, sent, waits =>
    let req := envReq env
    match env.tr attempt with
    | Except.error e =>
      let wErr := ExecErr.cls (wrapError e env.method env.url)
      match env.c.retryPolicy with
      | some p =>
        if attempt < env.maxAttempts then
          attemptLoop env fuel (attempt + 1) resp (some wErr) (sent ++ [req])
            (waits ++ [backoff p (env.rand attempt) attempt])
        else
          { resp := Option.none, err := some wErr, sent := sent ++ [req], waits := waits }
      | Option.none =>
        { resp := Option.none, err := some wErr, sent := sent ++ [req], waits := waits }
    | Except.ok r =>
      if 400 ≤ r.statusCode then
        let hErr := httpErrOf env.method env.url r attempt
        match env.c.retryPolicy with
        | some p =>
          if attempt < env.maxAttempts ∧ shouldRetry r.statusCode then
            attemptLoop env fuel (attempt + 1) (some r) (some hErr) (sent ++ [req])
              (waits ++ [retryDelay p (env.rand attempt) r attempt])
          else
            { resp := some r, err := some hErr, sent := sent ++ [req], waits := waits }
        | Option.none =>
          { resp := some r, err := some hErr, sent := sent ++ [req], waits := waits }
      else
        if env.hasResult ∧ r.body ≠ [] ∧ env.decodeOk r.body = false then
          { resp := some r, err := some (ExecErr.raw RawErr.jsonUnmarshal),
            sent := sent ++ [req], waits := waits }
        else
          { resp := some r, err := Option.none, sent := sent ++ [req], waits := waits }

/-- Model of `Client.doWithOptions` (`client.go`): encode the body once, gate on
the rate limiter (`rlErr` is the outcome of `rateLimiter.Wait(ctx)` when a
limiter is configured), derive the bounded context if and only if the
per-request timeout is positive, then run the attempt loop with
`maxAttempts` taken from the retry policy (1 when none is set). -/
def doWithOptions (c : ClientCfg) (cfg : ReqCfg) (ctx : Ctx) (now : ℚ)
    (method url : String) (body : GoBody) (hasResult : Bool)
    (decodeOk : List Nat → Bool) (rlErr : Option GoErr)
    (tr : Int → Except GoErr Response) (rand : Int → ℚ) : ExecOut :=
  match encodeBody body with
  | Except.error e =>
    { resp := Option.none, err := some (ExecErr.raw (RawErr.encode e)), sent := [], waits := [] }
  | Except.ok (bodyBytes, encCT) =>
    match (if c.hasRateLimiter then rlErr else Option.none) with
    | some e =>
      { resp := Option.none
        err := some (ExecErr.cls
          { kind := ErrorKind.rateLimit, method := method, url := url, cause := some e })
        sent := []
        waits := [] }
    | Option.none =>
      let ctx1 := if 0 < cfg.timeout then withTimeout ctx now cfg.timeout else ctx
      let maxA : Int :=
        match c.retryPolicy with
        | some p => p.maxAttempts
        | Option.none => 1
      let env : LoopEnv :=
        { c := c, cfg := cfg, ctx := ctx1, method := method, url := url, body := body,
          bodyBytes := bodyBytes, encCT := encCT, tr := tr, rand := rand,
          hasResult := hasResult, decodeOk := decodeOk, maxAttempts := maxA }
      attemptLoop env maxA.toNat 1 Option.none Option.none [] []

/-- Events observable through the middleware chain: a middleware's pre-logic,
its post-logic, and the innermost transport call. -/
inductive MWEvent
  | pre (name : String)
  | post (name : String)
  | hit
deriving DecidableEq, Repr

/-- Round-trip function threading an event trace (models `RoundTripFunc`
together with the side effects the test observes). -/
def TraceRT : Type := WireReq → List MWEvent → Except GoErr Response × List MWEvent

/-- Middleware over trace-threading round-trippers (models `Middleware`). -/
def TraceMw : Type := WireReq → TraceRT → List MWEvent → Except GoErr Response × List MWEvent

/-- The chain construction of `doWithOptions` lines 414-426: wrap the transport
with the middlewares in reverse registration order, so the first-registered
middleware becomes the outermost wrapper. -/
def buildChain (mws : List TraceMw) (base : TraceRT) : TraceRT :=
  mws.foldr (fun mw next => fun r t => mw r next t) base

/-- An observing middleware: records its pre-event, calls next, records its
post-event — the shape of the ordering test's instrumented middlewares. -/
def obsMw (name : String) : TraceMw :=
  fun r next t =>
    let out := next r (t ++ [MWEvent.pre name])
    (out.1, out.2 ++ [MWEvent.post name])

/-- An observing transport: records the transport call and returns `resp`. -/
def obsBase (resp : Response) : TraceRT :=
  fun _r t => (Except.ok resp, t ++ [MWEvent.hit])

/-- A 3-attempt retry policy with the default delays and no jitter. -/
def policy3 : RetryPolicy :=
  { maxAttempts := 3, initialDelay := 500000000, maxDelay := 30000000000,
    multiplier := 2, jitter := 0 }

/-- A client configured with `policy3` and no rate limiter. -/
def client3 : ClientCfg := { retryPolicy := some policy3 }

/-- A 503 response with no headers and an empty body. -/
def resp503 : Response := { statusCode := 503, status := "503 Service Unavailable" }

/-- A 400 response with no headers and an empty body. -/
def resp400 : Response := { statusCode := 400, status := "400 Bad Request" }

/-- A context with no deadline (`context.Background()`). -/
def ctxNone : Ctx := { deadline := Option.none }

/-- A transport that answers every attempt with the same response. -/
def alwaysOkTr (r : Response) : Int → Except GoErr Response := fun _ => Except.ok r

/-- A degenerate random source (`rand.Float64()` fixed to 0). -/
def zeroRand : Int → ℚ := fun _ => 0

/-- Executor run: always-503 transport under the 3-attempt policy. -/
def run503 : ExecOut :=
  doWithOptions client3 {} ctxNone 0 "GET" "u" GoBody.nil false (fun _ => true)
    Option.none (alwaysOkTr resp503) zeroRand

/-- Executor run: 400 response under the configured 3-attempt policy. -/
def run400 : ExecOut :=
  doWithOptions client3 {} ctxNone 0 "GET" "u" GoBody.nil false (fun _ => true)
    Option.none (alwaysOkTr resp400) zeroRand

/-- The loop environment of `run503`, for step-level statements. -/
def env503 : LoopEnv :=
  { c := client3, cfg := {}, ctx := ctxNone, method := "GET", url := "u",
    body := GoBody.nil, bodyBytes := Option.none, encCT := "",
    tr := alwaysOkTr resp503, rand := zeroRand, hasResult := false,
    decodeOk := fun _ => true, maxAttempts := 3 }

/-- A policy with initial delay 1, cap 1, multiplier 1 and jitter 0, used to
instantiate the backoff theorem. -/
def unitPolicy : RetryPolicy :=
  { maxAttempts := 3, initialDelay := 1, maxDelay := 1, multiplier := 1, jitter := 0 }

/-- A limiter of 1 request per hour, as freshly constructed (full bucket). -/
def rlFull : RateLimiter := newRateLimiter 1 3600000000000 0

/-- A zero-rate limiter state with an empty bucket, at time 0. -/
def rlEmpty : RateLimiter :=
  { tokens := 0, maxTokens := 1, refillRate := 0, lastRefill := 0 }

/-- A 200 response whose body is the single byte 123 (the character that opens
a JSON object), used with a decoder that rejects it. -/
def respBadJson : Response := { statusCode := 200, status := "200 OK", body := [123] }

/-- Executor run: success status, result target supplied, deserialisation
fails. -/
def runParse : ExecOut :=
  doWithOptions client3 {} ctxNone 0 "GET" "u" GoBody.nil true (fun _ => false)
    Option.none (alwaysOkTr respBadJson) zeroRand

/-- Client with the 3-attempt policy and a client-level default timeout of
10 seconds set by `WithTimeout`. -/
def clientT : ClientCfg := { retryPolicy := some policy3, timeout := 10000000000 }

/-- Executor run: client-level timeout configured, no per-request timeout,
always-503 transport. -/
def runClientT : ExecOut :=
  doWithOptions clientT {} ctxNone 0 "GET" "u" GoBody.nil false (fun _ => true)
    Option.none (alwaysOkTr resp503) zeroRand

/-- A policy whose MaxAttempts is zero. -/
def policy0 : RetryPolicy :=
  { maxAttempts := 0, initialDelay := 1, maxDelay := 1, multiplier := 1, jitter := 0 }

theorem attemptLoop_trace (env : LoopEnv) :
    ∀ (fuel : Nat) (attempt : Int) (resp : Option Response) (err : Option ExecErr)
      (sent : List WireReq) (waits : List ℚ),
      ∃ ts ws,
        (attemptLoop env fuel attempt resp err sent waits).sent = sent ++ ts ∧
        (attemptLoop env fuel attempt resp err sent waits).waits = waits ++ ws ∧
        (∀ x ∈ ts, x = envReq env) ∧
        ts.length ≤ fuel ∧
        (1 ≤ fuel → 1 ≤ ts.length) := by
  intro fuel
  induction fuel with
  | zero =>
    intro a resp err sent waits
    exact ⟨[], [], by simp [attemptLoop], by simp [attemptLoop], by simp, by simp, by simp⟩
  | succ fuel ih =>
    intro a resp err sent waits
    rcases htr : env.tr a with e | r
    · rcases hp : env.c.retryPolicy with _ | p
      · refine ⟨[envReq env], [], ?_, ?_, ?_, ?_, ?_⟩ <;>
          simp [attemptLoop, htr, hp, envReq]
      · by_cases hlt : a < env.maxAttempts
        · obtain ⟨ts, ws, h1, h2, h3, h4, h5⟩ :=
            ih (a + 1) resp (some (ExecErr.cls (wrapError e env.method env.url)))
              (sent ++ [envReq env]) (waits ++ [backoff p (env.rand a) a])
          refine ⟨envReq env :: ts, backoff p (env.rand a) a :: ws, ?_, ?_, ?_, ?_, ?_⟩
          · simpa [attemptLoop, htr, hp, hlt, envReq] using h1
          · simpa [attemptLoop, htr, hp, hlt, envReq] using h2
          · intro x hx
            rcases List.mem_cons.mp hx with hx | hx
            · exact hx
            · exact h3 x hx
          · simpa using Nat.succ_le_succ h4
          · intro h
            simp
        · refine ⟨[envReq env], [], ?_, ?_, ?_, ?_, ?_⟩ <;>
            simp [attemptLoop, htr, hp, hlt, envReq]
    · by_cases h400 : 400 ≤ r.statusCode
      · rcases hp : env.c.retryPolicy with _ | p
        · refine ⟨[envReq env], [], ?_, ?_, ?_, ?_, ?_⟩ <;>
            simp [attemptLoop, htr, hp, h400, envReq]
        · by_cases hcond : a < env.maxAttempts ∧ shouldRetry r.statusCode
          · obtain ⟨ts, ws, h1, h2, h3, h4, h5⟩ :=
              ih (a + 1) (some r) (some (httpErrOf env.method env.url r a))
                (sent ++ [envReq env]) (waits ++ [retryDelay p (env.rand a) r a])
            refine ⟨envReq env :: ts, retryDelay p (env.rand a) r a :: ws, ?_, ?_, ?_, ?_, ?_⟩
            · simpa [attemptLoop, htr, hp, h400, hcond, envReq] using h1
            · simpa [attemptLoop, htr, hp, h400, hcond, envReq] using h2
            · intro x hx
              rcases List.mem_cons.mp hx with hx | hx
              · exact hx
              · exact h3 x hx
            · simpa using Nat.succ_le_succ h4
            · intro h
              simp
          · refine ⟨[envReq env], [], ?_, ?_, ?_, ?_, ?_⟩ <;>
              simp [attemptLoop, htr, hp, h400, hcond, envReq]
      · by_cases hjson : env.hasResult ∧ r.body ≠ [] ∧ env.decodeOk r.body = false
        · refine ⟨[envReq env], [], ?_, ?_, ?_, ?_, ?_⟩ <;>
            simp [attemptLoop, htr, h400, hjson, envReq]
        · refine ⟨[envReq env], [], ?_, ?_, ?_, ?_, ?_⟩ <;>
            simp [attemptLoop, htr, h400, hjson, envReq]

theorem attemptLoop_http_retry (env : LoopEnv) (fuel : Nat) (a : Int)
    (resp : Option Response) (err : Option ExecErr) (sent : List WireReq) (waits : List ℚ)
    (r : Response) (p : RetryPolicy)
    (htr : env.tr a = Except.ok r) (h400 : 400 ≤ r.statusCode)
    (hp : env.c.retryPolicy = some p)
    (hlt : a < env.maxAttempts) (hsr : shouldRetry r.statusCode = true) :
    attemptLoop env (fuel + 1) a resp err sent waits =
      attemptLoop env fuel (a + 1) (some r) (some (httpErrOf env.method env.url r a))
        (sent ++ [envReq env]) (waits ++ [retryDelay p (env.rand a) r a]) := by
  simp [attemptLoop, htr, hp, h400, hlt, hsr]

theorem attemptLoop_http_stop (env : LoopEnv) (fuel : Nat) (a : Int)
    (resp : Option Response) (err : Option ExecErr) (sent : List WireReq) (waits : List ℚ)
    (r : Response)
    (htr : env.tr a = Except.ok r) (h400 : 400 ≤ r.statusCode)
    (hstop : ¬(env.c.retryPolicy.isSome = true ∧ a < env.maxAttempts ∧
      shouldRetry r.statusCode = true)) :
    attemptLoop env (fuel + 1) a resp err sent waits =
      { resp := some r, err := some (httpErrOf env.method env.url r a),
        sent := sent ++ [envReq env], waits := waits } := by
  rcases hp : env.c.retryPolicy with _ | p
  · simp [attemptLoop, htr, hp, h400]
  · have hnc : ¬(a < env.maxAttempts ∧ shouldRetry r.statusCode = true) := by
      intro hc
      exact hstop ⟨by simp [hp], hc.1, hc.2⟩
    simp only [attemptLoop, htr, hp, h400]
    simp [hnc]

theorem attemptLoop_success (env : LoopEnv) (fuel : Nat) (a : Int)
    (resp : Option Response) (err : Option ExecErr) (sent : List WireReq) (waits : List ℚ)
    (r : Response)
    (htr : env.tr a = Except.ok r) (hlt : r.statusCode < 400) :
    attemptLoop env (fuel + 1) a resp err sent waits =
      (if env.hasResult ∧ r.body ≠ [] ∧ env.decodeOk r.body = false then
        { resp := some r, err := some (ExecErr.raw RawErr.jsonUnmarshal),
          sent := sent ++ [envReq env], waits := waits }
      else
        { resp := some r, err := Option.none, sent := sent ++ [envReq env], waits := waits }) := by
  have h400 : ¬(400 ≤ r.statusCode) := not_le.mpr hlt
  simp [attemptLoop, htr, h400]

/-- C1.  A status >= 400 response leads to a further attempt if and only if a
retry policy is configured, attempts remain, and the policy marks the status
retryable; otherwise the loop returns that response together with the
HTTP-kind classified error carrying the attempt count.  In particular an
always-503 transport under the 3-attempt policy makes exactly 3 attempts and
ends in an HTTP-kind error with attempts = 3; a 400 response under the same
policy makes exactly 1 attempt; and a status < 400 response terminates the
loop at that attempt. -/
theorem retryDecision_spec :
    (∀ (env : LoopEnv) (a : Int) (resp : Option Response) (err : Option ExecErr)
      (sent : List WireReq) (waits : List ℚ) (r : Response),
      env.tr a = Except.ok r → 400 ≤ r.statusCode →
      ((sent.length + 2 ≤
          (attemptLoop env ((env.maxAttempts - a).toNat + 1) a resp err sent waits).sent.length) ↔
        (env.c.retryPolicy.isSome = true ∧ a < env.maxAttempts ∧
          shouldRetry r.statusCode = true)) ∧
      (¬(env.c.retryPolicy.isSome = true ∧ a < env.maxAttempts ∧
          shouldRetry r.statusCode = true) →
        attemptLoop env ((env.maxAttempts - a).toNat + 1) a resp err sent waits =
          { resp := some r, err := some (httpErrOf env.method env.url r a),
            sent := sent ++ [envReq env], waits := waits })) ∧
    (run503.sent.length = 3 ∧
      run503.err = some (httpErrOf "GET" "u" resp503 3) ∧
      run503.resp = some resp503) ∧
    (run400.sent.length = 1 ∧
      run400.err = some (httpErrOf "GET" "u" resp400 1) ∧
      run400.resp = some resp400) ∧
    (∀ (env : LoopEnv) (fuel : Nat) (a : Int) (resp : Option Response)
      (err : Option ExecErr) (sent : List WireReq) (waits : List ℚ) (r : Response),
      env.tr a = Except.ok r → r.statusCode < 400 →
      (attemptLoop env (fuel + 1) a resp err sent waits).sent.length = sent.length + 1) := by
  refine ⟨?_, ⟨by decide, by decide, by decide⟩, ⟨by decide, by decide, by decide⟩, ?_⟩
  · intro env a resp err sent waits r htr h400
    constructor
    · constructor
      · intro hlen
        by_contra hnc
        rw [attemptLoop_http_stop env _ a resp err sent waits r htr h400 hnc] at hlen
        simp at hlen
      · rintro ⟨hsome, hlt, hsr⟩
        rcases hp : env.c.retryPolicy with _ | p
        · rw [hp] at hsome
          cases hsome
        · rw [attemptLoop_http_retry env _ a resp err sent waits r p htr h400 hp hlt hsr]
          obtain ⟨ts, ws, h1, _h2, _h3, _h4, h5⟩ :=
            attemptLoop_trace env ((env.maxAttempts - a).toNat) (a + 1) (some r)
              (some (httpErrOf env.method env.url r a)) (sent ++ [envReq env])
              (waits ++ [retryDelay p (env.rand a) r a])
          rw [h1]
          have hfuel : 1 ≤ (env.maxAttempts - a).toNat := by omega
          have := h5 hfuel
          simp
          omega
    · intro hnc
      exact attemptLoop_http_stop env _ a resp err sent waits r htr h400 hnc
  · intro env fuel a resp err sent waits r htr hlt
    rw [attemptLoop_success env fuel a resp err sent waits r htr hlt]
    by_cases hj : env.hasResult ∧ r.body ≠ [] ∧ env.decodeOk r.body = false
    · simp [hj]
    · simp [hj]

/-- Witness for `retryDecision_spec`: at the concrete always-503 environment,
attempt 1 under the 3-attempt policy leads to a further attempt. -/
theorem retryDecision_spec_witness :
    0 + 2 ≤ (attemptLoop env503 ((env503.maxAttempts - 1).toNat + 1) 1 Option.none
      Option.none [] []).sent.length := by
  have h := (retryDecision_spec.1 env503 1 Option.none Option.none [] [] resp503 rfl
    (by decide)).1.mpr ⟨by decide, by decide, by decide⟩
  simpa using h

/-- C3.  `ShouldRetry` returns true exactly for 408, 429, 502, 503, 504 and
false for every other status, including 400, 401, 404, 500 and success codes;
`IsRetryable` returns true exactly for Timeout and Network kinds and for HTTP
kind with one of those retryable statuses, and false for the Parse, RateLimit
and Unknown kinds. -/
theorem retryable_classification :
    (∀ s : Int, shouldRetry s = true ↔
      (s = 408 ∨ s = 429 ∨ s = 502 ∨ s = 503 ∨ s = 504)) ∧
    (shouldRetry 400 = false ∧ shouldRetry 401 = false ∧ shouldRetry 404 = false ∧
      shouldRetry 500 = false ∧ shouldRetry 200 = false ∧ shouldRetry 204 = false) ∧
    (∀ e : HError, isRetryable e = true ↔
      (e.kind = ErrorKind.timeout ∨ e.kind = ErrorKind.network ∨
        (e.kind = ErrorKind.http ∧ shouldRetry e.statusCode = true))) ∧
    (∀ e : HError,
      e.kind = ErrorKind.parse ∨ e.kind = ErrorKind.rateLimit ∨ e.kind = ErrorKind.unknown →
      isRetryable e = false) := by
  have hsr : ∀ s : Int, shouldRetry s = true ↔
      (s = 408 ∨ s = 429 ∨ s = 502 ∨ s = 503 ∨ s = 504) := by
    intro s
    unfold shouldRetry
    split_ifs <;> simp_all
  refine ⟨hsr, ⟨by decide, by decide, by decide, by decide, by decide, by decide⟩, ?_, ?_⟩
  · intro e
    cases hk : e.kind <;>
      simp only [isRetryable, hk, hsr, shouldRetry] <;> simp
  · intro e hk
    rcases hk with hk | hk | hk <;> simp [isRetryable, hk]

/-- Witness for `retryable_classification`: a Parse-kind error is not
retryable. -/
theorem retryable_classification_witness :
    isRetryable { kind := ErrorKind.parse } = false :=
  retryable_classification.2.2.2 { kind := ErrorKind.parse } (Or.inl rfl)

theorem backoff_eq_min (p : RetryPolicy) (u : ℚ) (a : Int) (hj : p.jitter = 0) :
    backoff p u a =
      min (p.initialDelay * p.multiplier ^ ((max a 1 - 1)).toNat) p.maxDelay := by
  unfold backoff
  have h1 : (if a ≤ 0 then (1 : Int) else a) = max a 1 := by
    split_ifs with h <;> omega
  rw [h1, hj]
  simp only [lt_irrefl, if_false]
  rcases lt_or_le p.maxDelay (p.initialDelay * p.multiplier ^ ((max a 1 - 1)).toNat) with h | h
  · rw [if_pos h, min_eq_right h.le]
  · rw [if_neg (not_lt.mpr h), min_eq_left h]

theorem backoff_eq_jitter (p : RetryPolicy) (u : ℚ) (a : Int) (hj : 0 < p.jitter) :
    backoff p u a =
      min (p.initialDelay * p.multiplier ^ ((max a 1 - 1)).toNat) p.maxDelay *
        (1 - p.jitter + u * 2 * p.jitter) := by
  unfold backoff
  have h1 : (if a ≤ 0 then (1 : Int) else a) = max a 1 := by
    split_ifs with h <;> omega
  rw [h1]
  rw [if_pos hj]
  rcases lt_or_le p.maxDelay (p.initialDelay * p.multiplier ^ ((max a 1 - 1)).toNat) with h | h
  · rw [if_pos h, min_eq_right h.le]
    ring
  · rw [if_neg (not_lt.mpr h), min_eq_left h]
    ring

theorem backoff_exponent_mono (k a : Int) (hka : k ≤ a) :
    ((max k 1 - 1)).toNat ≤ ((max a 1 - 1)).toNat := by
  rcases le_total k 1 with hk | hk
  · rcases le_total a 1 with ha | ha
    · omega
    · omega
  · omega

/-- C2.  With jitter 0, `Backoff(attempt)` (attempt <= 0 treated as 1) equals
`initialDelay * multiplier^(attempt-1)` capped at `maxDelay`, is monotone
non-decreasing in the attempt number, and equals `maxDelay` for every attempt
at or beyond a point where the exponential reaches the cap; for any jitter
fraction in [0,1] and any random draw in [0,1), the delay is never negative
and never exceeds `maxDelay * (1 + jitter)`.  Hypotheses: a sane policy with
non-negative initial delay and cap and multiplier at least 1. -/
theorem backoff_spec (p : RetryPolicy) (u : ℚ)
    (hd : 0 ≤ p.initialDelay) (hm : 1 ≤ p.multiplier) (hM : 0 ≤ p.maxDelay) :
    (p.jitter = 0 → ∀ a : Int,
      backoff p u a =
        min (p.initialDelay * p.multiplier ^ ((max a 1 - 1)).toNat) p.maxDelay) ∧
    (p.jitter = 0 → ∀ a : Int, backoff p u a ≤ backoff p u (a + 1)) ∧
    (p.jitter = 0 → ∀ k a : Int, 1 ≤ k → k ≤ a →
      p.maxDelay ≤ p.initialDelay * p.multiplier ^ ((k - 1)).toNat →
      backoff p u a = p.maxDelay) ∧
    (0 ≤ p.jitter → p.jitter ≤ 1 → 0 ≤ u → u < 1 → ∀ a : Int,
      0 ≤ backoff p u a ∧ backoff p u a ≤ p.maxDelay * (1 + p.jitter)) := by
  have hm0 : (0 : ℚ) ≤ p.multiplier := le_trans zero_le_one hm
  have hraw : ∀ a : Int, 0 ≤ p.initialDelay * p.multiplier ^ ((max a 1 - 1)).toNat :=
    fun a => mul_nonneg hd (pow_nonneg hm0 _)
  have hrawmono : ∀ k a : Int, k ≤ a →
      p.initialDelay * p.multiplier ^ ((max k 1 - 1)).toNat ≤
        p.initialDelay * p.multiplier ^ ((max a 1 - 1)).toNat := by
    intro k a hka
    exact mul_le_mul_of_nonneg_left
      (pow_le_pow_right₀ hm (backoff_exponent_mono k a hka)) hd
  refine ⟨fun hj a => backoff_eq_min p u a hj, ?_, ?_, ?_⟩
  · intro hj a
    rw [backoff_eq_min p u a hj, backoff_eq_min p u (a + 1) hj]
    exact min_le_min (hrawmono a (a + 1) (by omega)) le_rfl
  · intro hj k a hk hka hcap
    rw [backoff_eq_min p u a hj]
    have hmaxk : max k 1 = k := max_eq_left hk
    have : p.maxDelay ≤ p.initialDelay * p.multiplier ^ ((max a 1 - 1)).toNat := by
      calc p.maxDelay ≤ p.initialDelay * p.multiplier ^ ((k - 1)).toNat := hcap
        _ = p.initialDelay * p.multiplier ^ ((max k 1 - 1)).toNat := by rw [hmaxk]
        _ ≤ p.initialDelay * p.multiplier ^ ((max a 1 - 1)).toNat := hrawmono k a hka
    exact min_eq_right this
  · intro hj0 hj1 hu0 hu1 a
    set base := min (p.initialDelay * p.multiplier ^ ((max a 1 - 1)).toNat) p.maxDelay with hbase
    have hb0 : 0 ≤ base := le_min (hraw a) hM
    have hbM : base ≤ p.maxDelay := min_le_right _ _
    rcases eq_or_lt_of_le hj0 with hj | hj
    · rw [backoff_eq_min p u a hj.symm, ← hbase, ← hj]
      constructor
      · exact hb0
      · calc base ≤ p.maxDelay := hbM
          _ = p.maxDelay * (1 + 0) := by ring
    · rw [backoff_eq_jitter p u a hj, ← hbase]
      constructor
      · have hfac : 0 ≤ 1 - p.jitter + u * 2 * p.jitter := by nlinarith
        exact mul_nonneg hb0 hfac
      · have hfac : 1 - p.jitter + u * 2 * p.jitter ≤ 1 + p.jitter := by nlinarith
        calc base * (1 - p.jitter + u * 2 * p.jitter)
            ≤ base * (1 + p.jitter) := by nlinarith
          _ ≤ p.maxDelay * (1 + p.jitter) := by nlinarith

/-- Witness for `backoff_spec`: the unit policy satisfies the hypotheses, and
its Backoff at attempt 2 is the capped exponential. -/
theorem backoff_spec_witness :
    backoff unitPolicy 0 2 =
      min (unitPolicy.initialDelay * unitPolicy.multiplier ^ ((max (2 : Int) 1 - 1)).toNat)
        unitPolicy.maxDelay :=
  (backoff_spec unitPolicy 0 zero_le_one (le_refl 1) zero_le_one).1 rfl 2

theorem wrap64_eq_self (n : Int) (h1 : int64Min ≤ n) (h2 : n ≤ int64Max) :
    wrap64 n = n := by
  unfold wrap64
  simp only [int64Min] at h1
  simp only [int64Max] at h2
  rw [Int.emod_eq_of_lt (by omega) (by omega)]
  omega

/-- C4 counterexample: `ParseRetryAfter` on the negative integer string "-5"
returns the negative duration of minus five seconds, not zero. -/
theorem parseRetryAfter_neg_counterexample :
    parseRetryAfter "-5" = -5000000000 ∧ (-5000000000 : Int) ≠ 0 := by decide

/-- C4 (amended).  `ParseRetryAfter` returns n seconds for a decimal string of
a non-negative integer n whenever n seconds fits in int64; the empty string
and strings `Atoi` rejects yield zero (no override); a negative integer yields
the corresponding negative duration rather than zero — which the executor
still treats as no override, since only a positive parsed value supersedes the
computed backoff; and in the executor, when a retryable status >= 400 response
carries a Retry-After header parsing to a positive duration, exactly that
duration is the wait recorded for the attempt. -/
theorem parseRetryAfter_spec :
    parseRetryAfter "" = 0 ∧
    (∀ s : String, atoiGo s = Option.none → parseRetryAfter s = 0) ∧
    (∀ (s : String) (n : Int), atoiGo s = some n → 0 ≤ n →
      n * 1000000000 ≤ int64Max → parseRetryAfter s = n * 1000000000) ∧
    (∀ (s : String) (n : Int), atoiGo s = some n → n < 0 →
      int64Min ≤ n * 1000000000 → parseRetryAfter s = n * 1000000000) ∧
    (∀ (env : LoopEnv) (fuel : Nat) (a : Int) (resp : Option Response)
      (err : Option ExecErr) (sent : List WireReq) (waits : List ℚ)
      (r : Response) (p : RetryPolicy),
      env.c.retryPolicy = some p → env.tr a = Except.ok r → 400 ≤ r.statusCode →
      a < env.maxAttempts → shouldRetry r.statusCode = true →
      0 < parseRetryAfter (getHeader r.headers "Retry-After") →
      ∃ ws, (attemptLoop env (fuel + 1) a resp err sent waits).waits =
        waits ++ ((parseRetryAfter (getHeader r.headers "Retry-After") : Int) : ℚ) :: ws) := by
  have hne : ∀ s : String, s ≠ "" → parseRetryAfter s =
      (match atoiGo s with
        | Option.none => 0
        | some seconds => wrap64 (seconds * 1000000000)) := by
    intro s hs
    unfold parseRetryAfter
    rw [if_neg hs]
  refine ⟨by decide, ?_, ?_, ?_, ?_⟩
  · intro s h
    by_cases hs : s = ""
    · subst hs; decide
    · rw [hne s hs, h]
  · intro s n h hn hbound
    have hs : s ≠ "" := by
      intro hs
      subst hs
      exact Option.noConfusion ((rfl : atoiGo "" = Option.none) ▸ h)
    rw [hne s hs, h]
    exact wrap64_eq_self _ (by unfold int64Min; omega) hbound
  · intro s n h hn hbound
    have hs : s ≠ "" := by
      intro hs
      subst hs
      exact Option.noConfusion ((rfl : atoiGo "" = Option.none) ▸ h)
    rw [hne s hs, h]
    have hle : n * 1000000000 ≤ int64Max := by
      unfold int64Max
      nlinarith
    exact wrap64_eq_self _ hbound hle
  · intro env fuel a resp err sent waits r p hp htr h400 hlt hsr hpos
    have hra : getHeader r.headers "Retry-After" ≠ "" := by
      intro h
      rw [h] at hpos
      exact absurd hpos (by decide)
    rw [attemptLoop_http_retry env fuel a resp err sent waits r p htr h400 hp hlt hsr]
    obtain ⟨ts, ws, _h1, h2, _h3, _h4, _h5⟩ :=
      attemptLoop_trace env fuel (a + 1) (some r) (some (httpErrOf env.method env.url r a))
        (sent ++ [envReq env]) (waits ++ [retryDelay p (env.rand a) r a])
    refine ⟨ws, ?_⟩
    rw [h2]
    have hd : retryDelay p (env.rand a) r a =
        ((parseRetryAfter (getHeader r.headers "Retry-After") : Int) : ℚ) := by
      unfold retryDelay
      simp [hra, hpos]
    rw [hd]
    simp

/-- Witness for `parseRetryAfter_spec`: the string "120" parses to 120 seconds. -/
theorem parseRetryAfter_spec_witness :
    parseRetryAfter "120" = 120 * 1000000000 :=
  parseRetryAfter_spec.2.2.1 "120" 120 (by decide) (by decide) (by decide)

/-- C5 counterexample: `Wait` called with an already-cancelled context on a
freshly constructed limiter (a token is available) succeeds and debits a
token — it does not fail. -/
theorem rlWait_cancelled_counterexample :
    (rlWait rlFull [(0, true)]).map Prod.fst = some true := by
  norm_num [rlWait, rlFull, newRateLimiter, refill]

/-- Helper evaluation: on the empty zero-rate bucket, `Wait` under an
already-cancelled context fails in its first iteration. -/
theorem rlEmpty_wait_fails :
    rlWait rlEmpty [(0, true)] = some (false, refill rlEmpty 0) := by
  norm_num [rlWait, rlEmpty, refill]

/-- C5 (amended).  With an already-cancelled context, `Wait` returns within
its first loop iteration: it still grants (and debits) a token when one is
available after the lazy refill, and otherwise fails immediately with the
context's error; and whenever `Wait` returns an error, no token has been
debited — the final state arises from the initial state by refills alone, and
its token count is still below 1. -/
theorem rlWait_spec :
    (∀ (r : RateLimiter) (now : ℚ) (rest : List (ℚ × Bool)),
      rlWait r ((now, true) :: rest) =
        (if 1 ≤ (refill r now).tokens then
          some (true, { refill r now with tokens := (refill r now).tokens - 1 })
        else some (false, refill r now))) ∧
    (∀ (r : RateLimiter) (sched : List (ℚ × Bool)) (s : RateLimiter),
      rlWait r sched = some (false, s) →
      (∃ ts : List ℚ, s = ts.foldl refill r) ∧ s.tokens < 1) := by
  constructor
  · intro r now rest
    by_cases h : 1 ≤ (refill r now).tokens
    · simp [rlWait, h]
    · simp [rlWait, h]
  · intro r sched
    induction sched generalizing r with
    | nil =>
      intro s h
      simp [rlWait] at h
    | cons hd tl ih =>
      intro s h
      rcases hd with ⟨now, cd⟩
      by_cases htok : 1 ≤ (refill r now).tokens
      · simp [rlWait, htok] at h
      · rcases hcd : cd with _ | _
        · subst hcd
          simp only [rlWait, if_neg htok, Bool.false_eq_true, if_false] at h
          obtain ⟨⟨ts, hts⟩, hlt⟩ := ih (refill r now) s h
          exact ⟨⟨now :: ts, by simp [hts]⟩, hlt⟩
        · subst hcd
          simp only [rlWait, if_neg htok, if_true, Option.some.injEq, Prod.mk.injEq,
            true_and] at h
          rw [← h]
          refine ⟨⟨[now], by simp⟩, lt_of_not_le htok⟩

/-- Witness for `rlWait_spec`: the failed wait on the empty zero-rate bucket
debited nothing — its final state is a pure refill chain with fewer than one
token. -/
theorem rlWait_spec_witness :
    (∃ ts : List ℚ, refill rlEmpty 0 = ts.foldl refill rlEmpty) ∧
      (refill rlEmpty 0).tokens < 1 :=
  rlWait_spec.2 rlEmpty [(0, true)] (refill rlEmpty 0) rlEmpty_wait_fails

/-- C6.  The body is encoded into bytes exactly once, before the attempt loop
(`encodeBody` is consulted once in `doWithOptions` and its result is fixed for
the whole run); every attempt builds its wire request over those same bytes,
so the transport receives byte-identical request bodies on every attempt. -/
theorem body_replay_spec :
    ∀ (c : ClientCfg) (cfg : ReqCfg) (ctx : Ctx) (now : ℚ) (method url : String)
      (body : GoBody) (hasResult : Bool) (decodeOk : List Nat → Bool)
      (rlErr : Option GoErr) (tr : Int → Except GoErr Response) (rand : Int → ℚ)
      (bs : List Nat) (ct : String),
      encodeBody body = Except.ok (some bs, ct) →
      ∀ q ∈ (doWithOptions c cfg ctx now method url body hasResult decodeOk rlErr tr rand).sent,
        q.body = some bs := by
  intro c cfg ctx now method url body hasResult decodeOk rlErr tr rand bs ct henc q hq
  unfold doWithOptions at hq
  rw [henc] at hq
  rcases hrl : (if c.hasRateLimiter then rlErr else Option.none) with _ | e
  · rw [hrl] at hq
    simp only at hq
    obtain ⟨ts, ws, h1, _h2, h3, _h4, _h5⟩ :=
      attemptLoop_trace
        { c := c, cfg := cfg,
          ctx := if 0 < cfg.timeout then withTimeout ctx now cfg.timeout else ctx,
          method := method, url := url, body := body, bodyBytes := some bs, encCT := ct,
          tr := tr, rand := rand, hasResult := hasResult, decodeOk := decodeOk,
          maxAttempts :=
            match c.retryPolicy with
            | some p => p.maxAttempts
            | Option.none => 1 }
        (match c.retryPolicy with
          | some p => p.maxAttempts
          | Option.none => (1 : Int)).toNat 1 Option.none Option.none [] []
    rw [h1] at hq
    simp only [List.nil_append] at hq
    have := h3 q hq
    rw [this]
    rfl
  · rw [hrl] at hq
    simp at hq

/-- Witness for `body_replay_spec`: in a 3-attempt always-503 run of a POST
with byte body [1, 2, 3], the first attempt's wire request carries exactly
those bytes (and by the theorem, so does every attempt). -/
theorem body_replay_spec_witness :
    (buildReq client3 {} ctxNone "POST" "u" (GoBody.bytes [1, 2, 3]) (some [1, 2, 3])
      "").body = some [1, 2, 3] :=
  body_replay_spec client3 {} ctxNone 0 "POST" "u" (GoBody.bytes [1, 2, 3]) false
    (fun _ => true) Option.none (alwaysOkTr resp503) zeroRand [1, 2, 3] "" rfl
    (buildReq client3 {} ctxNone "POST" "u" (GoBody.bytes [1, 2, 3]) (some [1, 2, 3]) "")
    (by decide)

/-- C7.  For middlewares registered in a given order, the first-registered
middleware is the outermost wrapper: its pre-logic runs first and its
post-logic last, with the transport call innermost.  For observing middlewares
A then B the trace is exactly A-pre, B-pre, transport, B-post, A-post. -/
theorem middleware_order_spec :
    (∀ (names : List String) (r0 : WireReq) (resp : Response) (t0 : List MWEvent),
      (buildChain (names.map obsMw) (obsBase resp) r0 t0).2 =
        t0 ++ names.map MWEvent.pre ++ [MWEvent.hit] ++ names.reverse.map MWEvent.post) ∧
    (∀ (r0 : WireReq) (resp : Response),
      (buildChain [obsMw "A", obsMw "B"] (obsBase resp) r0 []).2 =
        [MWEvent.pre "A", MWEvent.pre "B", MWEvent.hit,
          MWEvent.post "B", MWEvent.post "A"]) := by
  have hgen : ∀ (names : List String) (r0 : WireReq) (resp : Response) (t0 : List MWEvent),
      (buildChain (names.map obsMw) (obsBase resp) r0 t0).2 =
        t0 ++ names.map MWEvent.pre ++ [MWEvent.hit] ++ names.reverse.map MWEvent.post := by
    intro names
    induction names with
    | nil =>
      intro r0 resp t0
      simp [buildChain, obsBase]
    | cons n ns ih =>
      intro r0 resp t0
      have hstep :
          (buildChain ((n :: ns).map obsMw) (obsBase resp) r0 t0).2 =
            (buildChain (ns.map obsMw) (obsBase resp) r0
              (t0 ++ [MWEvent.pre n])).2 ++ [MWEvent.post n] := by
        simp [buildChain, obsMw]
      rw [hstep, ih r0 resp (t0 ++ [MWEvent.pre n])]
      simp
  refine ⟨hgen, ?_⟩
  intro r0 resp
  have h := hgen ["A", "B"] r0 resp []
  simpa using h

/-- C8.  When an attempt's response has status < 400, a result target was
supplied and the body is non-empty, a deserialisation failure makes the
executor return the Response together with the error — but the error is the
raw `json.Unmarshal` error passed through unchanged, not a classified
`*Error` of kind Parse: the source never constructs `ErrKindParse`. -/
theorem parse_failure_raw_error :
    runParse.resp = some respBadJson ∧
    runParse.err = some (ExecErr.raw RawErr.jsonUnmarshal) := by
  constructor
  · decide
  · decide

/-- C9.  Every wire request of a run carries the single context derived once
before the attempt loop, and that context is bounded if and only if the
PER-REQUEST timeout is positive: the client-level default timeout stored by
`WithTimeout` is never consulted by `doWithOptions` (`requestConfig.timeout`
starts at zero), so with only the client-level timeout configured all three
attempts of an always-503 run carry no deadline at all. -/
theorem timeout_scope_spec :
    (∀ (c : ClientCfg) (cfg : ReqCfg) (ctx : Ctx) (now : ℚ) (method url : String)
      (body : GoBody) (hasResult : Bool) (decodeOk : List Nat → Bool)
      (rlErr : Option GoErr) (tr : Int → Except GoErr Response) (rand : Int → ℚ)
      (enc : Option (List Nat) × String),
      encodeBody body = Except.ok enc →
      ∀ q ∈ (doWithOptions c cfg ctx now method url body hasResult decodeOk rlErr tr rand).sent,
        q.ctx = (if 0 < cfg.timeout then withTimeout ctx now cfg.timeout else ctx)) ∧
    (runClientT.sent.length = 3 ∧
      (runClientT.sent.all fun q => q.ctx.deadline = Option.none) = true) := by
  constructor
  · intro c cfg ctx now method url body hasResult decodeOk rlErr tr rand enc henc q hq
    rcases enc with ⟨bodyBytes, encCT⟩
    unfold doWithOptions at hq
    rw [henc] at hq
    rcases hrl : (if c.hasRateLimiter then rlErr else Option.none) with _ | e
    · rw [hrl] at hq
      simp only at hq
      obtain ⟨ts, ws, h1, _h2, h3, _h4, _h5⟩ :=
        attemptLoop_trace
          { c := c, cfg := cfg,
            ctx := if 0 < cfg.timeout then withTimeout ctx now cfg.timeout else ctx,
            method := method, url := url, body := body, bodyBytes := bodyBytes,
            encCT := encCT, tr := tr, rand := rand, hasResult := hasResult,
            decodeOk := decodeOk,
            maxAttempts :=
              match c.retryPolicy with
              | some p => p.maxAttempts
              | Option.none => 1 }
          (match c.retryPolicy with
            | some p => p.maxAttempts
            | Option.none => (1 : Int)).toNat 1 Option.none Option.none [] []
      rw [h1] at hq
      simp only [List.nil_append] at hq
      have := h3 q hq
      rw [this]
      rfl
    · rw [hrl] at hq
      simp at hq
  · exact ⟨by decide, by decide⟩

/-- Witness for `timeout_scope_spec`: the first wire request of the
client-level-timeout run carries the underived background context. -/
theorem timeout_scope_spec_witness :
    (buildReq clientT {} ctxNone "GET" "u" GoBody.nil Option.none "").ctx =
      (if 0 < (({} : ReqCfg)).timeout then withTimeout ctxNone 0 (({} : ReqCfg)).timeout
        else ctxNone) :=
  timeout_scope_spec.1 clientT {} ctxNone 0 "GET" "u" GoBody.nil false (fun _ => true)
    Option.none (alwaysOkTr resp503) zeroRand (Option.none, "") rfl
    (buildReq clientT {} ctxNone "GET" "u" GoBody.nil Option.none "") (by decide)

/-- C10.  With a retry policy whose MaxAttempts is zero or negative, the
attempt loop guard fails immediately: no wire request reaches the middleware
chain or transport, and `doWithOptions` returns a nil Response with a nil
error. -/
theorem zero_attempts_spec :
    ∀ (c : ClientCfg) (cfg : ReqCfg) (ctx : Ctx) (now : ℚ) (method url : String)
      (body : GoBody) (hasResult : Bool) (decodeOk : List Nat → Bool)
      (rlErr : Option GoErr) (tr : Int → Except GoErr Response) (rand : Int → ℚ)
      (p : RetryPolicy) (enc : Option (List Nat) × String),
      c.retryPolicy = some p → p.maxAttempts ≤ 0 →
      encodeBody body = Except.ok enc →
      (c.hasRateLimiter = true → rlErr = Option.none) →
      doWithOptions c cfg ctx now method url body hasResult decodeOk rlErr tr rand =
        { resp := Option.none, err := Option.none, sent := [], waits := [] } := by
  intro c cfg ctx now method url body hasResult decodeOk rlErr tr rand p enc hp hmax henc hrl
  rcases enc with ⟨bodyBytes, encCT⟩
  unfold doWithOptions
  rw [henc]
  have hrl0 : (if c.hasRateLimiter then rlErr else Option.none) = Option.none := by
    rcases hb : c.hasRateLimiter with _ | _
    · simp [hb]
    · simp [hb, hrl hb]
  rw [hrl0]
  simp only [hp]
  have htn : p.maxAttempts.toNat = 0 := Int.toNat_of_nonpos hmax
  rw [htn]
  rfl

/-- Witness for `zero_attempts_spec`: a client with a 0-attempt policy returns
nil response, nil error, and sends nothing. -/
theorem zero_attempts_spec_witness :
    doWithOptions { retryPolicy := some policy0 } {} ctxNone 0 "GET" "u" GoBody.nil
        false (fun _ => true) Option.none (alwaysOkTr resp503) zeroRand =
      { resp := Option.none, err := Option.none, sent := [], waits := [] } :=
  zero_attempts_spec { retryPolicy := some policy0 } {} ctxNone 0 "GET" "u" GoBody.nil
    false (fun _ => true) Option.none (alwaysOkTr resp503) zeroRand policy0
    (Option.none, "") rfl (by decide) rfl (fun h => by cases h)

end Httpclient
